import Mathlib

/- Verification development for the session/subscription layer of
buddycloud-http-api (src/util/session.js). The JavaScript is embedded
shallowly: stanza objects become an XML tree type, the event-driven
callbacks become explicit state-passing step functions whose visible
effects (outbound stanzas, callback invocations, fan-out posts) are
recorded in action lists. The generic TTL cache (cache.js) is not among
the sources; where its behaviour matters it is modelled from the spec,
as flagged in the doc comments. -/

namespace BC

/-- XML element tree: name, attributes, children. Models the stanza
objects (node-xmpp and libxmljs elements) flowing through session.js. -/
inductive XmlNode where
  | mk (name : String) (attrs : List (String × String)) (children : List XmlNode)

def XmlNode.name : XmlNode → String
  | .mk n _ _ => n

def XmlNode.attrsOf : XmlNode → List (String × String)
  | .mk _ a _ => a

def XmlNode.childrenOf : XmlNode → List XmlNode
  | .mk _ _ c => c

/-- Attribute lookup, in the style of stanza.attrs.id in the source. -/
def XmlNode.attr (x : XmlNode) (k : String) : Option String :=
  (x.attrsOf.find? (fun p => decide (p.1 = k))).map Prod.snd

/-- The stanza synthesized by the reply-handler expiration handler
(session.js lines 141-147): an iq of type error with a child error of
type cancel wrapping a service-unavailable condition. -/
def serviceUnavailableIq : XmlNode :=
  .mk "iq" [("type", "error")]
    [.mk "error" [("type", "cancel")] [.mk "service-unavailable" [] []]]

/-- Reply-handler cache contents: correlation id mapped to a handler
(callbacks are opaque and identified by a number). Modelled from the
spec: cache.js is not among the sources; section 4.1 of the spec gives
the put, get, remove and generateKey operations and the expiration
contract (onexpired fires exactly once, synchronously with removal, and
never for an explicit remove). -/
abbrev ReplyHandlers := List (String × Nat)

def rhLookup : ReplyHandlers → String → Option Nat
  | [], _ => none
  | p :: rest, k => if p.1 = k then some p.2 else rhLookup rest k

def rhRemove : ReplyHandlers → String → ReplyHandlers
  | [], _ => []
  | p :: rest, k => if p.1 = k then rhRemove rest k else p :: rhRemove rest k

/-- Events the reply-correlation layer reacts to: an inbound stanza
(session.js lines 244-251) or the cache expiring a pending entry
(session.js lines 140-147). -/
inductive RhEvent where
  | stanza (s : XmlNode)
  | expire (k : String)

/-- A recorded callback invocation: which handler ran and the stanza it
received as argument. -/
structure Invoked where
  handler : Nat
  arg : XmlNode

/-- One step of the reply-correlation layer. For an inbound stanza with
a truthy id attribute whose id matches a pending entry, the entry is
removed from the cache before the handler runs (lines 244-250). For an
expiration, the handler receives the synthesized service-unavailable iq
(lines 141-147); the cache removes the entry as it expires. -/
def rhStep (st : ReplyHandlers) (ev : RhEvent) : ReplyHandlers × List Invoked :=
  match ev with
  | .stanza s =>
    match s.attr "id" with
    | none => (st, [])
    | some i =>
      if i = "" then (st, [])
      else
        match rhLookup st i with
        | none => (st, [])
        | some h => (rhRemove st i, [⟨h, s⟩])
  | .expire k =>
    match rhLookup st k with
    | none => (st, [])
    | some h => (rhRemove st k, [⟨h, serviceUnavailableIq⟩])

def rhRun (st : ReplyHandlers) (evs : List RhEvent) : ReplyHandlers × List Invoked :=
  match evs with
  | [] => (st, [])
  | ev :: rest =>
    let r1 := rhStep st ev
    let r2 := rhRun r1.1 rest
    (r2.1, r1.2 ++ r2.2)

/-- Overwrite or add one attribute, as iq.attr(k, v) does. -/
def setPair (l : List (String × String)) (k v : String) : List (String × String) :=
  if l.any (fun p => decide (p.1 = k)) then
    l.map (fun p => if p.1 = k then (k, v) else p)
  else l ++ [(k, v)]

def XmlNode.setAttr (x : XmlNode) (k v : String) : XmlNode :=
  .mk x.name (setPair x.attrsOf k v) x.childrenOf

/-- Session.prototype.sendQuery (lines 272-282): store the handler under
a correlation key produced by the reply-handler cache generateKey, and
stamp the outgoing iq with from, to and id. The cache spec guarantees
generateKey returns a key not currently present; that freshness is a
hypothesis of the theorems using sendQuery. -/
def sendQuery (st : ReplyHandlers) (qid : String) (h : Nat)
    (jid channelDomain : String) (iq : XmlNode) : ReplyHandlers × XmlNode :=
  (st ++ [(qid, h)],
   ((iq.setAttr "from" jid).setAttr "to" channelDomain).setAttr "id" qid)

/-- Does this event resolve the pending entry for the given key: a
stanza echoing the key as its id, or the expiration of that key. -/
def firesFor (qid : String) (ev : RhEvent) : Bool :=
  match ev with
  | .stanza s => decide (s.attr "id" = some qid)
  | .expire k => decide (k = qid)

def firstFiring (qid : String) (evs : List RhEvent) : Option RhEvent :=
  evs.find? (firesFor qid)

def invokedOf (h : Nat) (out : List Invoked) : List Invoked :=
  out.filter (fun iv => decide (iv.handler = h))

/-- Outcome of an attempted XMPP connection: the online event or the
error event with the error value node-xmpp reports (a string). -/
inductive ConnEvent where
  | online
  | connError (e : String)
deriving DecidableEq

/-- Actions visible from the session-provider layer: responses sent,
errors forwarded to the next middleware, connection attempts started and
session id headers set. -/
inductive ProvAct where
  | sendUnauthorized
  | nextOk
  | nextError (e : String)
  | connectAttempt
  | setSessionHeader (id : String)
deriving DecidableEq

/-- The error listener installed by createSession (lines 84-93): an
error equal to the node-xmpp authentication failure text yields an
unauthorized response; any other error value is handed unchanged to the
next middleware. -/
def createSessionOnError (e : String) : ProvAct :=
  if e = "XMPP authentication failure" then .sendUnauthorized else .nextError e

/-- createSession (lines 73-94) observed through its connection events:
on online a session is created (a session cache key is generated only
when the request carries credentials) and handed to provideSession,
which caches the session and sets the session id header only when the
session id is non-null (lines 64-71); on error the error listener runs.
The generated key is passed in as userKey (none when no credentials). -/
def createSessionConnEvent (userKey : Option String) (ev : ConnEvent) : List ProvAct :=
  match ev with
  | .online =>
    match userKey with
    | some k => [.setSessionHeader k, .nextOk]
    | none => [.nextOk]
  | .connError e => [createSessionOnError e]

/-- useAnonymousSession (lines 116-126) with the createSession connect
path it triggers. The anonymous singleton is a session with a null id,
identified here by its creation number. When the singleton exists it is
provided directly (no connection attempt, and provideSession neither
caches it nor sets a header because its id is null). When it does not,
createSession runs: on online the wrapper callback receives no error and
stores the new session as the singleton before calling next; on a
non-authentication error the wrapper forwards the error without storing;
on an authentication failure createSession answers unauthorized itself
and the wrapper never runs, so nothing is stored either. Returns the
singleton after the request, the creation counter, and the actions. -/
def useAnonymousSession (anon : Option Nat) (counter : Nat) (ev : ConnEvent) :
    Option Nat × Nat × List ProvAct :=
  match anon with
  | some s => (some s, counter, [.nextOk])
  | none =>
    match ev with
    | .online => (some counter, counter + 1, [.connectAttempt, .nextOk])
    | .connError e => (none, counter, [.connectAttempt, createSessionOnError e])

/-- Association map with JS object-property semantics: assignment
overwrites an existing key in place, otherwise appends. -/
def aset {α : Type} : List (String × α) → String → α → List (String × α)
  | [], k, v => [(k, v)]
  | p :: rest, k, v => if p.1 = k then (k, v) :: rest else p :: aset rest k v

def alookup {α : Type} : List (String × α) → String → Option α
  | [], _ => none
  | p :: rest, k => if p.1 = k then some p.2 else alookup rest k

/-- JS delete of an object property. -/
def aremove {α : Type} : List (String × α) → String → List (String × α)
  | [], _ => []
  | p :: rest, k => if p.1 = k then aremove rest k else p :: aremove rest k

/-- The slice of config that session.js consults on the subscription
paths: the pubsub channel domain and the optional fan-out realm. -/
structure Config where
  channelDomain : String
  fanoutRealm : Option String
deriving DecidableEq

/-- One subscribe caller: the pair of callbacks stored on the pending
list (callbacks are opaque, identified by numbers). -/
structure Caller where
  onsub : Nat
  onerror : Nat
deriving DecidableEq

/-- A parsed atom entry delivered inside a pubsub event message: the
text of its a:id element and the parsed millisecond timestamp of its
a:updated element (getTime of the iso8601 date, parsing is external). -/
structure AtomEntry where
  atomId : String
  updatedMs : Int
deriving DecidableEq

/-- An accumulated item (lines 196-202): the entry id text, the updated
time in milliseconds with the sub-second part floored away, and the
entry itself. -/
structure Item where
  idId : String
  idTime : Int
  entry : AtomEntry
deriving DecidableEq

/-- The item built from one entry (lines 196-202): idTime is
Math.floor(ms / 1000) * 1000, flooring to the second boundary while
staying in milliseconds. -/
def mkItem (e : AtomEntry) : Item :=
  ⟨e.atomId, Int.fdiv e.updatedMs 1000 * 1000, e⟩

/-- The user-data object of a subscription, built up dynamically by the
stanza listener (lines 186-213). none models a field that is undefined
or null in the JS object. -/
structure UserData where
  items : Option (List Item)
  fromAttr : Option String
  prevId : Option String
  lastPublishedId : Option String
deriving DecidableEq

def UserData.empty : UserData := ⟨none, none, none, none⟩

/-- One subscription cache entry (line 332). userData is a reference
into the user-data heap, preserving JS object identity: every caller
handed this subscription sees the same mutable object. -/
structure Sub where
  state : String
  pending : List Caller
  userData : Nat
deriving DecidableEq

/-- The reply handler a subscribe call stores through sendQuery
(lines 352-367): the closure captures the subscription object (here a
heap reference) and the subscription cache key. -/
inductive RHandler where
  | subReply (subRef : Nat) (subkey : String)
deriving DecidableEq

/-- The per-session state touched by the subscription paths. subsProps
are the plain JS properties that session.js sets directly on the _subs
cache object (lines 314, 333, 362); subsEntries is the internal
TTL-managed store of that cache, modelled from the spec (entries are
key, value and insertion time), which session.js never writes;
subsOnexpired is the expiration callback of the _subs cache, which the
constructor leaves unset because the installing code is commented out
(lines 149-157). subHeap and udHeap model JS object identity for
subscription entries and their user-data objects. -/
structure SessionState where
  jid : String
  subsProps : List (String × Nat)
  subsEntries : List (String × Nat × Nat)
  subsOnexpired : Option Nat
  subHeap : List Sub
  udHeap : List UserData
  subsPresences : List (String × Nat)
  replyHandlers : List (String × RHandler)
  nextKey : Nat
deriving DecidableEq

/-- A fresh session as the Session constructor leaves it
(lines 129-138): empty caches, empty presence refcount map, and no
expiration handler installed on _subs. -/
def initSession (jid : String) : SessionState :=
  ⟨jid, [], [], none, [], [], [], [], 0⟩

def getSub (st : SessionState) (ref : Nat) : Sub :=
  st.subHeap.getD ref ⟨"", [], 0⟩

def getUd (st : SessionState) (ref : Nat) : UserData :=
  st.udHeap.getD ref UserData.empty

def setSub (st : SessionState) (ref : Nat) (s : Sub) : SessionState :=
  { st with subHeap := st.subHeap.set ref s }

def setUd (st : SessionState) (ref : Nat) (u : UserData) : SessionState :=
  { st with udHeap := st.udHeap.set ref u }

/-- Correlation keys as generated for sendQuery. Modelled from the
spec: the cache generateKey returns an unguessable key not currently in
the cache; here keys are drawn from a counter, and the theorems carry
the not-currently-present guarantee as a freshness hypothesis. -/
def generateKey (st : SessionState) : String :=
  "q" ++ toString st.nextKey

/-- The subscription cache key (lines 312-313): channel domain, an
underscore, and the node id. -/
def mkSubkey (cfg : Config) (nodeId : String) : String :=
  cfg.channelDomain ++ "_" ++ nodeId

/-- JS truthiness of a string-or-null-or-undefined value. -/
def jsTruthy (s : Option String) : Bool :=
  match s with
  | none => false
  | some v => decide (v ≠ "")

/-- The effects the subscription paths can have: outbound presence and
subscribe stanzas, invocations of stored callbacks, fan-out posts, and
invocations of a cache expiration callback. -/
inductive FeedBody where
  | atomXml (channel node : String) (fromAttr : Option String) (entries : List AtomEntry)
  | jsonFeed (channel node : String) (fromAttr : Option String) (entries : List AtomEntry)
deriving DecidableEq

inductive Act where
  | sendPresence (fromJid toDomain : String)
  | sendSubscribeIq (nodeId : String) (queryId : String)
  | onsubCall (cb : Nat) (ud : Nat)
  | onerrorCall (cb : Nat) (msg : String)
  | fanout (channel : String) (foid : Option String) (prevId : Option String)
      (contentType : String) (body : FeedBody)
  | onexpiredCall (cb : Nat) (key : String)
deriving DecidableEq

/-- Session.prototype.fanoutPublish (lines 370-383): the published item
carries the id and prev-id fields only when they are truthy; the HTTP
POST itself is external and recorded as an action. -/
def fanoutPublish (channel : String) (id prevId : Option String)
    (contentType : String) (body : FeedBody) : Act :=
  .fanout channel (if jsTruthy id then id else none)
    (if jsTruthy prevId then prevId else none) contentType body

/-- Session.prototype.subscribe (lines 311-368). The acts are the
visible effects, in program order; callback invocations run against the
returned state. For an existing entry: subscribed invokes onsub at once
with the shared user data, subscribing appends the caller to the
pending list with no further effect, any other state invokes onerror.
For an absent entry: a fresh entry in state subscribing is stored as a
direct property, the presence block runs (note that the increment in
the else branch targets a local copy of the count, so the stored count
is never written beyond 1), and sendQuery issues the protocol subscribe
request while storing the reply closure. -/
def subscribe (cfg : Config) (st : SessionState) (nodeId : String) (c : Caller) :
    SessionState × List Act :=
  let pubjid := cfg.channelDomain
  let subkey := mkSubkey cfg nodeId
  match alookup st.subsProps subkey with
  | some ref =>
    let sub := getSub st ref
    if sub.state = "subscribed" then
      (st, [.onsubCall c.onsub sub.userData])
    else if sub.state = "subscribing" then
      (setSub st ref { sub with pending := sub.pending ++ [c] }, [])
    else
      (st, [.onerrorCall c.onerror "an error that should not happen"])
  | none =>
    let udRef := st.udHeap.length
    let subRef := st.subHeap.length
    let st1 : SessionState := { st with
      udHeap := st.udHeap ++ [UserData.empty],
      subHeap := st.subHeap ++ [⟨"subscribing", [c], udRef⟩],
      subsProps := aset st.subsProps subkey subRef }
    let presFresh : Bool :=
      match alookup st1.subsPresences pubjid with
      | none => true
      | some n => decide (n = 0)
    let st2 : SessionState :=
      if presFresh then
        { st1 with subsPresences := aset st1.subsPresences pubjid 1 }
      else st1
    let acts2 : List Act :=
      if presFresh then [.sendPresence st.jid pubjid] else []
    let qid := generateKey st2
    let st3 : SessionState := { st2 with
      replyHandlers := st2.replyHandlers ++ [(qid, .subReply subRef subkey)],
      nextKey := st2.nextKey + 1 }
    (st3, acts2 ++ [.sendSubscribeIq nodeId qid])

/-- The reply dispatch of the stanza listener (lines 244-250) applied
to the closure a subscribe call stored (lines 352-367): the handler is
removed from the cache first; a reply of type result moves the entry to
state subscribed and invokes every pending onsub with the entry-held
user-data reference, leaving the pending list in place; any other reply
type first deletes the subscription property and then invokes every
pending onerror, so the callbacks run against a state with no entry for
that topic. -/
def deliverReply (st : SessionState) (qid : String) (rtype : Option String) :
    SessionState × List Act :=
  match alookup st.replyHandlers qid with
  | none => (st, [])
  | some (.subReply subRef subkey) =>
    let st0 : SessionState := { st with replyHandlers := aremove st.replyHandlers qid }
    let sub := getSub st0 subRef
    if rtype = some "result" then
      (setSub st0 subRef { sub with state := "subscribed" },
       sub.pending.map (fun p => .onsubCall p.onsub sub.userData))
    else
      ({ st0 with subsProps := aremove st0.subsProps subkey },
       sub.pending.map (fun p => .onerrorCall p.onerror "failed"))

def startsWithChars : List Char → List Char → Bool
  | [], _ => true
  | _ :: _, [] => false
  | p :: ps, c :: cs => decide (p = c) && startsWithChars ps cs

def idxFrom : List Char → List Char → Nat → Option Nat
  | pat, [], i => if startsWithChars pat [] then some i else none
  | pat, c :: cs, i =>
    if startsWithChars pat (c :: cs) then some i else idxFrom pat cs (i + 1)

/-- JS String.prototype.indexOf: position of the first occurrence, or
-1 when the pattern does not occur. -/
def jsIndexOf (s pat : String) : Int :=
  match idxFrom pat.data s.data 0 with
  | some i => (i : Int)
  | none => -1

/-- JS String.prototype.substring with one argument: the start index is
clamped into the string. -/
def jsSubstringFrom (s : String) (start : Int) : String :=
  let len : Int := (s.data.length : Int)
  let st := min (max start 0) len
  String.mk (s.data.drop st.toNat)

/-- JS String.prototype.substring with two arguments: both indices are
clamped and swapped when out of order. -/
def jsSubstring (s : String) (a b : Int) : String :=
  let len : Int := (s.data.length : Int)
  let a2 := min (max a 0) len
  let b2 := min (max b 0) len
  let lo := min a2 b2
  let hi := max a2 b2
  String.mk ((s.data.drop lo.toNat).take (hi.toNat - lo.toNat))

/-- makeChannelName (lines 160-162): every slash becomes a dot. -/
def makeChannelName (s : String) : String :=
  s.replace "/" "."

/-- The fan-out item id for the latest accumulated item (line 208). -/
def foIdOfItem (it : Item) : String :=
  it.idId ++ "_" ++ toString it.idTime

/-- The fan-out item id in terms of the originating entry. -/
def foIdOfEntry (e : AtomEntry) : String :=
  foIdOfItem (mkItem e)

/-- The pubsub event message branch of the stanza listener
(lines 168-243) for one inbound message carrying items for nodeId.
If no subscription property exists for the topic key, nothing happens.
Otherwise the user-data object shared by all callers of this
subscription is initialized on first use (items list, sender, null
causal pointers), the items of this message are appended, and when the
fan-out realm is configured one atom and one json emission are produced
whose id comes from the latest accumulated item and whose prev-id is
the previously published id, absent for the first emission. Feed
construction is external and carried as data. If the fan-out block ran
with an empty accumulated item list the JS would throw a TypeError
reading a property of undefined; that case (a matched items element
with no entries on a fresh subscription) is modelled as emitting
nothing. -/
def handleMessageItems (cfg : Config) (st : SessionState) (nodeId : String)
    (fromAttr : Option String) (entries : List AtomEntry) : SessionState × List Act :=
  let subkey := mkSubkey cfg nodeId
  match alookup st.subsProps subkey with
  | none => (st, [])
  | some subRef =>
    let udRef := (getSub st subRef).userData
    let ud0 := getUd st udRef
    let ud1 : UserData :=
      match ud0.items with
      | none => ⟨some [], fromAttr, none, none⟩
      | some _ => ud0
    let itemsAll := ud1.items.getD [] ++ entries.map mkItem
    let ud2 : UserData := { ud1 with items := some itemsAll }
    match cfg.fanoutRealm with
    | none => (setUd st udRef ud2, [])
    | some _ =>
      match itemsAll.getLast? with
      | none => (setUd st udRef ud2, [])
      | some last =>
        let foId := foIdOfItem last
        let foPrevId := if jsTruthy ud2.lastPublishedId then ud2.lastPublishedId else none
        let ud3 : UserData := { ud2 with lastPublishedId := some foId }
        let at1 := jsIndexOf nodeId "/user/"
        let channelAndNode := jsSubstringFrom nodeId (at1 + 6)
        let at2 := jsIndexOf channelAndNode "/"
        let channel := jsSubstring channelAndNode 0 at2
        let node := jsSubstringFrom channelAndNode (at2 + 1)
        let foChannel := makeChannelName (st.jid ++ "_" ++ nodeId)
        (setUd st udRef ud3,
         [fanoutPublish (foChannel ++ "-atom") (some foId) foPrevId
            "application/atom+xml" (.atomXml channel node ud2.fromAttr entries),
          fanoutPublish (foChannel ++ "-json") (some foId) foPrevId
            "application/json" (.jsonFeed channel node ud2.fromAttr entries)])

/-- The TTL sweep of the _subs cache. Modelled from the spec: the cache
evicts every entry from its internal store whose TTL elapsed and
invokes the onexpired callback, when one is set, once per evicted
entry. session.js stores subscription entries as direct properties
rather than through put and leaves onexpired unset, so on reachable
states this sweep does nothing. -/
def subsSweep (st : SessionState) (now ttl : Nat) : SessionState × List Act :=
  let expired := st.subsEntries.filter (fun e => decide (e.2.2 + ttl ≤ now))
  let st1 : SessionState :=
    { st with subsEntries := st.subsEntries.filter (fun e => decide (¬ (e.2.2 + ttl ≤ now))) }
  match st.subsOnexpired with
  | none => (st1, [])
  | some cb => (st1, expired.map (fun e => .onexpiredCall cb e.1))

/-- The operations that can touch the subscription state of a session:
a subscribe call, delivery of a protocol reply, an inbound pubsub event
message, and a TTL sweep of the _subs cache. -/
inductive SessOp where
  | sub (nodeId : String) (c : Caller)
  | reply (qid : String) (rtype : Option String)
  | message (nodeId : String) (fromAttr : Option String) (entries : List AtomEntry)
  | sweep (now : Nat)
deriving DecidableEq

def isReplyOp : SessOp → Bool
  | .reply _ _ => true
  | _ => false

def sessStep (cfg : Config) (ttl : Nat) (st : SessionState) (op : SessOp) :
    SessionState × List Act :=
  match op with
  | .sub n c => subscribe cfg st n c
  | .reply q t => deliverReply st q t
  | .message n f es => handleMessageItems cfg st n f es
  | .sweep now => subsSweep st now ttl

def runOps (cfg : Config) (ttl : Nat) (st : SessionState) (ops : List SessOp) : SessionState :=
  ops.foldl (fun s op => (sessStep cfg ttl s op).1) st

def isPresenceAct : Act → Bool
  | .sendPresence _ _ => true
  | _ => false

def isSubIqAct : Act → Bool
  | .sendSubscribeIq _ _ => true
  | _ => false

/-- The fan-out emissions of an action list, projected to their id and
prev-id fields. -/
def fanoutIdsOf (acts : List Act) : List (Option String × Option String) :=
  acts.filterMap (fun a =>
    match a with
    | .fanout _ i p _ _ => some (i, p)
    | _ => none)

/-- The stanza-event listener list of the XMPP connection, in
registration order; the listeners registered by onStanza wrap a handler
(opaque, identified by a number). -/
structure Conn where
  listeners : List Nat
deriving DecidableEq

/-- Session.prototype.onStanza (lines 259-266): registers a wrapper
callback around the handler on the connection. -/
def onStanza (c : Conn) (h : Nat) : Conn :=
  ⟨c.listeners ++ [h]⟩

def emitStanzaAux (hFn : Nat → XmlNode → Bool) (s : XmlNode) :
    List Nat → List Nat × Bool
  | [] => ([], false)
  | h :: rest =>
    if hFn h s then ([h], true)
    else
      let r := emitStanzaAux hFn s rest
      (h :: r.1, r.2)

/-- A stanza event delivered to the wrappers that onStanza registered
(lines 259-266). The node event emitter invokes each listener with this
bound to the emitter, i.e. the xmpp connection object, not the Session;
the connection has no _connection property, so when the handler returns
a truthy value the wrapper evaluates the removeListener member of
undefined and raises a TypeError, which aborts the emit. Independently,
even with the intended receiver the call passes the callback where
removeListener expects the event type as its first argument, which
removes nothing. Under either reading the wrapper is never
deregistered; the TypeError path is modelled. hFn gives each handler
result. Returns the connection after the emit (its listener list is
unchanged), the handlers invoked in order, and whether a TypeError was
raised. -/
def emitStanza (hFn : Nat → XmlNode → Bool) (c : Conn) (s : XmlNode) :
    Conn × List Nat × Bool :=
  let r := emitStanzaAux hFn s c.listeners
  (c, r.1, r.2)

/-- Shared configurations and inputs for concrete evaluations. -/
def cfgEx : Config := ⟨"channels.example.org", none⟩

def cfgExF : Config := ⟨"channels.example.org", some "realm1"⟩

theorem alookup_aset_self {α : Type} (m : List (String × α)) (k : String) (v : α) :
    alookup (aset m k v) k = some v := by
  induction m with
  | nil => simp [aset, alookup]
  | cons p rest ih =>
    by_cases h : p.1 = k
    · simp [aset, alookup, h]
    · simp [aset, alookup, h, ih]

theorem alookup_aset_ne {α : Type} (m : List (String × α)) (k k2 : String) (v : α)
    (h : k ≠ k2) : alookup (aset m k2 v) k = alookup m k := by
  have hne : k2 ≠ k := Ne.symm h
  induction m with
  | nil => simp [aset, alookup, hne]
  | cons p rest ih =>
    by_cases hp : p.1 = k2
    · simp [aset, alookup, hp, hne]
    · by_cases hk : p.1 = k
      · simp [aset, alookup, hp, hk, hne, h]
      · simp [aset, alookup, hp, hk, ih]

theorem alookup_aremove_self {α : Type} (m : List (String × α)) (k : String) :
    alookup (aremove m k) k = none := by
  induction m with
  | nil => simp [aremove, alookup]
  | cons p rest ih =>
    by_cases h : p.1 = k
    · simp [aremove, h, ih]
    · simp [aremove, alookup, h, ih]

theorem alookup_aremove_ne {α : Type} (m : List (String × α)) (k k2 : String)
    (h : k ≠ k2) : alookup (aremove m k2) k = alookup m k := by
  have hne : k2 ≠ k := Ne.symm h
  induction m with
  | nil => simp [aremove, alookup]
  | cons p rest ih =>
    by_cases hp : p.1 = k2
    · simp [aremove, alookup, hp, hne, ih]
    · by_cases hk : p.1 = k
      · simp [aremove, alookup, hp, hk, h, hne]
      · simp [aremove, alookup, hp, hk, ih]

theorem alookup_append_self {α : Type} (m : List (String × α)) (k : String) (v : α)
    (h : alookup m k = none) : alookup (m ++ [(k, v)]) k = some v := by
  induction m with
  | nil => simp [alookup]
  | cons p rest ih =>
    simp only [alookup] at h
    by_cases hp : p.1 = k
    · simp [hp] at h
    · have h2 : alookup rest k = none := by simpa [hp] using h
      simpa [alookup, hp] using ih h2

theorem getD_append_length {α : Type} (l : List α) (x d : α) :
    (l ++ [x]).getD l.length d = x := by
  induction l with
  | nil => rfl
  | cons a rest ih => simp

theorem getD_set_self {α : Type} (l : List α) (i : Nat) (x d : α)
    (h : i < l.length) : (l.set i x).getD i d = x := by
  induction l generalizing i with
  | nil => simp at h
  | cons a rest ih =>
    cases i with
    | zero => rfl
    | succ j =>
      simp only [List.length_cons, Nat.succ_lt_succ_iff] at h
      simpa [List.set] using ih j h

theorem set_append_length {α : Type} (l : List α) (x y : α) :
    (l ++ [x]).set l.length y = l ++ [y] := by
  induction l with
  | nil => rfl
  | cons a rest ih => simp

/-- Claim C7: during session creation, a connection error whose value
equals the exact protocol-layer text XMPP authentication failure
results in an unauthorized response to the HTTP caller, and every other
connection error value is propagated unchanged to the next handler as a
generic failure. -/
theorem claim_C7_connection_error_dispatch (userKey : Option String) (e : String) :
    (e = "XMPP authentication failure" →
      createSessionConnEvent userKey (.connError e) = [.sendUnauthorized]) ∧
    (e ≠ "XMPP authentication failure" →
      createSessionConnEvent userKey (.connError e) = [.nextError e]) := by
  constructor
  · intro h
    simp [createSessionConnEvent, createSessionOnError, h]
  · intro h
    simp [createSessionConnEvent, createSessionOnError, h]

theorem claim_C7_witness :
    createSessionConnEvent none (.connError "XMPP authentication failure") =
      [.sendUnauthorized] ∧
    createSessionConnEvent none (.connError "connection refused") =
      [.nextError "connection refused"] :=
  ⟨(claim_C7_connection_error_dispatch none "XMPP authentication failure").1 rfl,
   (claim_C7_connection_error_dispatch none "connection refused").2 (by decide)⟩

/-- Claim C8 counterexample: when anonymous-session creation fails with
the connection error value XMPP authentication failure, the error is
not passed through to the next handler (an unauthorized response is
sent instead), refuting the claim that a creation failing with a
connection error has its error passed through; the singleton does
remain unset. -/
theorem claim_C8_counterexample :
    (useAnonymousSession none 0 (.connError "XMPP authentication failure")).2.2 =
      [.connectAttempt, .sendUnauthorized] ∧
    ProvAct.nextError "XMPP authentication failure" ∉
      (useAnonymousSession none 0 (.connError "XMPP authentication failure")).2.2 ∧
    (useAnonymousSession none 0 (.connError "XMPP authentication failure")).1 = none := by
  refine ⟨rfl, ?_, rfl⟩
  decide

/-- Claim C8 (amended): with no session id and no credentials, the
process-wide anonymous singleton is reused when it exists; when it does
not, creation is attempted, and only a creation completing without
error stores the singleton. A creation failing with a connection error
leaves the singleton unset; the error is passed through to the next
handler unless it is the authentication-failure text, in which case an
unauthorized response is sent instead (with the singleton likewise left
unset). Either way the next such request attempts creation again rather
than reusing a poisoned session. -/
theorem claim_C8_anonymous_singleton (s counter : Nat) (e : String) (ev : ConnEvent) :
    useAnonymousSession (some s) counter ev = (some s, counter, [.nextOk]) ∧
    useAnonymousSession none counter .online =
      (some counter, counter + 1, [.connectAttempt, .nextOk]) ∧
    (e ≠ "XMPP authentication failure" →
      useAnonymousSession none counter (.connError e) =
        (none, counter, [.connectAttempt, .nextError e])) ∧
    useAnonymousSession none counter (.connError "XMPP authentication failure") =
      (none, counter, [.connectAttempt, .sendUnauthorized]) ∧
    ProvAct.connectAttempt ∈ (useAnonymousSession none counter ev).2.2 := by
  refine ⟨rfl, rfl, ?_, ?_, ?_⟩
  · intro h
    simp [useAnonymousSession, createSessionOnError, h]
  · simp [useAnonymousSession, createSessionOnError]
  · cases ev with
    | online => simp [useAnonymousSession]
    | connError e2 => simp [useAnonymousSession]

theorem claim_C8_anonymous_singleton_witness :
    useAnonymousSession (some 4) 7 .online = (some 4, 7, [.nextOk]) ∧
    useAnonymousSession none 7 .online = (some 7, 8, [.connectAttempt, .nextOk]) ∧
    useAnonymousSession none 7 (.connError "connection refused") =
      (none, 7, [.connectAttempt, .nextError "connection refused"]) ∧
    useAnonymousSession none 7 (.connError "XMPP authentication failure") =
      (none, 7, [.connectAttempt, .sendUnauthorized]) ∧
    ProvAct.connectAttempt ∈ (useAnonymousSession none 7 ConnEvent.online).2.2 := by
  have h := claim_C8_anonymous_singleton 4 7 "connection refused" ConnEvent.online
  exact ⟨h.1, h.2.1, h.2.2.1 (by decide), h.2.2.2.1, h.2.2.2.2⟩

/-- First subscribe call from a fresh session, creating an entry
(claim C5 evaluation). -/
def c5r1 : SessionState × List Act :=
  subscribe cfgEx (initSession "alice@example.org/http") "/user/a@x/posts" ⟨0, 1⟩

/-- Second entry-creating subscribe call, to a different topic on the
same channel domain (claim C5 evaluation). -/
def c5r2 : SessionState × List Act :=
  subscribe cfgEx c5r1.1 "/user/b@x/posts" ⟨2, 3⟩

/-- Claim C5 evaluated at the failing input: from a fresh session, the
first entry-creating subscribe stores a presence reference count of 1
for the channel domain and sends exactly one presence stanza; the
second entry-creating subscribe for the same domain sends no presence
stanza, but the stored reference count is still 1, not 2, because the
increment in the source (line 347) targets a local copy of the numeric
count and never writes it back to the map. -/
theorem claim_C5_refcount_never_incremented :
    (c5r1.2.filter isPresenceAct).length = 1 ∧
    alookup c5r1.1.subsPresences "channels.example.org" = some 1 ∧
    (c5r2.2.filter isPresenceAct).length = 0 ∧
    alookup c5r2.1.subsPresences "channels.example.org" = some 1 ∧
    alookup c5r2.1.subsPresences "channels.example.org" ≠ some 2 := by
  decide

/-- An inbound message stanza used for the C9 evaluation. -/
def stanzaEx1 : XmlNode := .mk "message" [("from", "a@x")] []

def stanzaEx2 : XmlNode := .mk "message" [("from", "b@x")] []

/-- The connection after onStanza registered handler 7. -/
def c9conn : Conn := onStanza ⟨[]⟩ 7

/-- First stanza event: handler 7 returns true. -/
def c9emit1 : Conn × List Nat × Bool := emitStanza (fun _ _ => true) c9conn stanzaEx1

/-- Second stanza event on the resulting connection. -/
def c9emit2 : Conn × List Nat × Bool := emitStanza (fun _ _ => true) c9emit1.1 stanzaEx2

/-- Claim C9 evaluated at the failing input: a handler registered with
onStanza that returns a truthy value on its first invocation is NOT
deregistered: the wrapper raises a TypeError on the deregistration
attempt, the listener list is unchanged, and the handler is invoked
again for the next inbound stanza, contrary to the claim. -/
theorem claim_C9_handler_not_deregistered :
    c9emit1.2.1 = [7] ∧
    c9emit1.2.2 = true ∧
    c9emit1.1.listeners = [7] ∧
    c9emit2.2.1 = [7] := by
  decide

/-- A subscribe call followed by a successful reply, for the C3
counterexample. -/
def c3r1 : SessionState × List Act :=
  subscribe cfgEx (initSession "alice@example.org/http") "/user/a@x/posts" ⟨0, 1⟩

def c3r2 : SessionState × List Act := deliverReply c3r1.1 "q0" (some "result")

/-- Claim C3 counterexample: after a protocol subscribe reply of
success type the entry is in state subscribed and the pending callback
was invoked, but the pending list is NOT cleared: it still holds the
caller, refuting the claim that the pending list is then cleared. -/
theorem claim_C3_counterexample :
    (getSub c3r2.1 0).state = "subscribed" ∧
    c3r2.2 = [.onsubCall 0 0] ∧
    (getSub c3r2.1 0).pending = [⟨0, 1⟩] ∧
    (getSub c3r2.1 0).pending ≠ [] := by
  decide

theorem rhLookup_mem (st : ReplyHandlers) (k : String) (h : Nat)
    (hl : rhLookup st k = some h) : (k, h) ∈ st := by
  induction st with
  | nil => simp [rhLookup] at hl
  | cons p rest ih =>
    simp only [rhLookup] at hl
    split at hl
    · rename_i hcond
      injection hl with hl2
      have hpk : p = (k, h) := by
        rcases p with ⟨p1, p2⟩
        simp only at hcond hl2
        rw [hcond, hl2]
      rw [hpk]
      exact List.mem_cons_self _ _
    · exact List.mem_cons_of_mem _ (ih hl)

theorem rhRemove_subset (st : ReplyHandlers) (k : String) (p : String × Nat)
    (hp : p ∈ rhRemove st k) : p ∈ st := by
  induction st with
  | nil => simp [rhRemove] at hp
  | cons q rest ih =>
    simp only [rhRemove] at hp
    split at hp
    · exact List.mem_cons_of_mem _ (ih hp)
    · rcases List.mem_cons.mp hp with h1 | h2
      · rw [h1]
        exact List.mem_cons_self _ _
      · exact List.mem_cons_of_mem _ (ih h2)

theorem rhRemove_key_gone (st : ReplyHandlers) (k : String) (p : String × Nat)
    (hp : p ∈ rhRemove st k) : p.1 ≠ k := by
  induction st with
  | nil => simp [rhRemove] at hp
  | cons q rest ih =>
    simp only [rhRemove] at hp
    split at hp
    · exact ih hp
    · rename_i hq
      rcases List.mem_cons.mp hp with h1 | h2
      · rw [h1]
        exact hq
      · exact ih h2

theorem rhLookup_rhRemove_ne (st : ReplyHandlers) (k k2 : String)
    (h : k ≠ k2) : rhLookup (rhRemove st k2) k = rhLookup st k := by
  have hne : k2 ≠ k := Ne.symm h
  induction st with
  | nil => simp [rhRemove, rhLookup]
  | cons p rest ih =>
    by_cases hp : p.1 = k2
    · simp [rhRemove, rhLookup, hp, hne, ih]
    · by_cases hk : p.1 = k
      · simp [rhRemove, rhLookup, hp, hk, h, hne]
      · simp [rhRemove, rhLookup, hp, hk, ih]

theorem rhLookup_append_self (st : ReplyHandlers) (k : String) (v : Nat)
    (h : rhLookup st k = none) : rhLookup (st ++ [(k, v)]) k = some v := by
  induction st with
  | nil => simp [rhLookup]
  | cons p rest ih =>
    simp only [rhLookup] at h
    by_cases hp : p.1 = k
    · simp [hp] at h
    · have h2 : rhLookup rest k = none := by simpa [hp] using h
      simpa [rhLookup, hp] using ih h2

theorem invokedOf_append (h : Nat) (o1 o2 : List Invoked) :
    invokedOf h (o1 ++ o2) = invokedOf h o1 ++ invokedOf h o2 := by
  simp [invokedOf]

theorem rhStep_state_subset (st : ReplyHandlers) (ev : RhEvent)
    (p : String × Nat) (hp : p ∈ (rhStep st ev).1) : p ∈ st := by
  cases ev with
  | stanza s =>
    cases hattr : s.attr "id" with
    | none =>
      simp only [rhStep, hattr] at hp
      exact hp
    | some i =>
      by_cases hi : i = ""
      · simp only [rhStep, hattr, if_pos hi] at hp
        exact hp
      · simp only [rhStep, hattr, if_neg hi] at hp
        cases hlk : rhLookup st i with
        | none =>
          rw [hlk] at hp
          exact hp
        | some h2 =>
          rw [hlk] at hp
          exact rhRemove_subset st i p hp
  | expire k =>
    cases hlk : rhLookup st k with
    | none =>
      simp only [rhStep, hlk] at hp
      exact hp
    | some h2 =>
      simp only [rhStep, hlk] at hp
      exact rhRemove_subset st k p hp

theorem rhStep_out_from_state (st : ReplyHandlers) (ev : RhEvent)
    (iv : Invoked) (hiv : iv ∈ (rhStep st ev).2) :
    ∃ k2, (k2, iv.handler) ∈ st := by
  cases ev with
  | stanza s =>
    cases hattr : s.attr "id" with
    | none =>
      simp only [rhStep, hattr] at hiv
      simp at hiv
    | some i =>
      by_cases hi : i = ""
      · simp only [rhStep, hattr, if_pos hi] at hiv
        simp at hiv
      · simp only [rhStep, hattr, if_neg hi] at hiv
        cases hlk : rhLookup st i with
        | none =>
          rw [hlk] at hiv
          simp at hiv
        | some h2 =>
          rw [hlk] at hiv
          have hiv2 : iv = ⟨h2, s⟩ := List.mem_singleton.mp hiv
          refine ⟨i, ?_⟩
          rw [hiv2]
          exact rhLookup_mem st i h2 hlk
  | expire k =>
    cases hlk : rhLookup st k with
    | none =>
      simp only [rhStep, hlk] at hiv
      simp at hiv
    | some h2 =>
      simp only [rhStep, hlk] at hiv
      have hiv2 : iv = ⟨h2, serviceUnavailableIq⟩ := List.mem_singleton.mp hiv
      refine ⟨k, ?_⟩
      rw [hiv2]
      exact rhLookup_mem st k h2 hlk

/-- If no cache entry holds the handler, the handler is never invoked
by any further trace of stanza and expiration events. -/
theorem rhRun_handler_absent (evs : List RhEvent) (st : ReplyHandlers) (h : Nat)
    (hval : ∀ p ∈ st, p.2 ≠ h) :
    invokedOf h (rhRun st evs).2 = [] := by
  induction evs generalizing st with
  | nil => simp [rhRun, invokedOf]
  | cons ev rest ih =>
    have hout : invokedOf h (rhStep st ev).2 = [] := by
      rw [invokedOf, List.filter_eq_nil_iff]
      intro iv hiv
      obtain ⟨k2, hk2⟩ := rhStep_out_from_state st ev iv hiv
      simpa using hval _ hk2
    have hval2 : ∀ p ∈ (rhStep st ev).1, p.2 ≠ h :=
      fun p hp => hval p (rhStep_state_subset st ev p hp)
    simp only [rhRun, invokedOf_append, hout, List.nil_append]
    exact ih (rhStep st ev).1 hval2

theorem firstFiring_cons_neg (qid : String) (ev : RhEvent) (evs : List RhEvent)
    (h : firesFor qid ev = false) :
    firstFiring qid (ev :: evs) = firstFiring qid evs := by
  simp [firstFiring, List.find?_cons, h]

theorem firstFiring_cons_pos (qid : String) (ev : RhEvent) (evs : List RhEvent)
    (h : firesFor qid ev = true) :
    firstFiring qid (ev :: evs) = some ev := by
  simp [firstFiring, List.find?_cons, h]

/-- While exactly one cache entry, under key qid, holds the handler h,
a trace of stanza and expiration events invokes h exactly at its first
event firing for qid: with the echoed stanza when that event is a
matching inbound stanza, with the synthesized service-unavailable iq
when it is the expiration, and never afterwards. -/
theorem rhRun_tracked (evs : List RhEvent) (st : ReplyHandlers) (qid : String) (h : Nat)
    (hq : rhLookup st qid = some h)
    (huniq : ∀ p ∈ st, p.2 = h → p.1 = qid)
    (hnz : qid ≠ "") :
    invokedOf h (rhRun st evs).2 =
      (match firstFiring qid evs with
       | none => []
       | some (.stanza s) => [⟨h, s⟩]
       | some (.expire _) => [⟨h, serviceUnavailableIq⟩]) := by
  induction evs generalizing st with
  | nil => simp [rhRun, invokedOf, firstFiring]
  | cons ev rest ih =>
    have hval_rm : ∀ p ∈ rhRemove st qid, p.2 ≠ h := by
      intro p hp heq
      exact rhRemove_key_gone st qid p hp (huniq p (rhRemove_subset st qid p hp) heq)
    cases ev with
    | stanza s =>
      cases hattr : s.attr "id" with
      | none =>
        have hstep : rhStep st (.stanza s) = (st, []) := by
          simp [rhStep, hattr]
        have hfire : firesFor qid (.stanza s) = false := by
          simp [firesFor, hattr]
        rw [firstFiring_cons_neg qid _ rest hfire]
        simp only [rhRun, hstep, invokedOf_append]
        simpa [invokedOf] using ih st hq huniq
      | some i =>
        by_cases hiq : i = qid
        · have hlk : rhLookup st i = some h := by rw [hiq]; exact hq
          have hi : ¬ i = "" := by rw [hiq]; exact hnz
          have hstep : rhStep st (.stanza s) = (rhRemove st i, [⟨h, s⟩]) := by
            simp [rhStep, hattr, hi, hlk]
          have hfire : firesFor qid (.stanza s) = true := by
            simp [firesFor, hattr, hiq]
          rw [firstFiring_cons_pos qid _ rest hfire]
          simp only [rhRun, hstep, invokedOf_append]
          have habs : invokedOf h (rhRun (rhRemove st i) rest).2 = [] := by
            rw [hiq]
            exact rhRun_handler_absent rest (rhRemove st qid) h hval_rm
          rw [habs]
          simp [invokedOf]
        · have hfire : firesFor qid (.stanza s) = false := by
            simp [firesFor, hattr, hiq]
          rw [firstFiring_cons_neg qid _ rest hfire]
          by_cases hi : i = ""
          · have hstep : rhStep st (.stanza s) = (st, []) := by
              simp [rhStep, hattr, hi]
            simp only [rhRun, hstep, invokedOf_append]
            simpa [invokedOf] using ih st hq huniq
          · cases hlk : rhLookup st i with
            | none =>
              have hstep : rhStep st (.stanza s) = (st, []) := by
                simp [rhStep, hattr, hi, hlk]
              simp only [rhRun, hstep, invokedOf_append]
              simpa [invokedOf] using ih st hq huniq
            | some h2 =>
              have hstep : rhStep st (.stanza s) = (rhRemove st i, [⟨h2, s⟩]) := by
                simp [rhStep, hattr, hi, hlk]
              have hne : h2 ≠ h := by
                intro heq
                exact hiq (huniq (i, h2) (rhLookup_mem st i h2 hlk) heq)
              have hq2 : rhLookup (rhRemove st i) qid = some h := by
                rw [rhLookup_rhRemove_ne st qid i (Ne.symm hiq)]
                exact hq
              have huniq2 : ∀ p ∈ rhRemove st i, p.2 = h → p.1 = qid :=
                fun p hp => huniq p (rhRemove_subset st i p hp)
              simp only [rhRun, hstep, invokedOf_append]
              simpa [invokedOf, hne] using ih (rhRemove st i) hq2 huniq2
    | expire k =>
      by_cases hkq : k = qid
      · have hlk : rhLookup st k = some h := by rw [hkq]; exact hq
        have hstep : rhStep st (.expire k) = (rhRemove st k, [⟨h, serviceUnavailableIq⟩]) := by
          simp [rhStep, hlk]
        have hfire : firesFor qid (.expire k) = true := by
          simp [firesFor, hkq]
        rw [firstFiring_cons_pos qid _ rest hfire]
        simp only [rhRun, hstep, invokedOf_append]
        have habs : invokedOf h (rhRun (rhRemove st k) rest).2 = [] := by
          rw [hkq]
          exact rhRun_handler_absent rest (rhRemove st qid) h hval_rm
        rw [habs]
        simp [invokedOf]
      · have hfire : firesFor qid (.expire k) = false := by
          simp [firesFor, hkq]
        rw [firstFiring_cons_neg qid _ rest hfire]
        cases hlk : rhLookup st k with
        | none =>
          have hstep : rhStep st (.expire k) = (st, []) := by
            simp [rhStep, hlk]
          simp only [rhRun, hstep, invokedOf_append]
          simpa [invokedOf] using ih st hq huniq
        | some h2 =>
          have hstep : rhStep st (.expire k) = (rhRemove st k, [⟨h2, serviceUnavailableIq⟩]) := by
            simp [rhStep, hlk]
          have hne : h2 ≠ h := by
            intro heq
            exact hkq (huniq (k, h2) (rhLookup_mem st k h2 hlk) heq)
          have hq2 : rhLookup (rhRemove st k) qid = some h := by
            rw [rhLookup_rhRemove_ne st qid k (Ne.symm hkq)]
            exact hq
          have huniq2 : ∀ p ∈ rhRemove st k, p.2 = h → p.1 = qid :=
            fun p hp => huniq p (rhRemove_subset st k p hp)
          simp only [rhRun, hstep, invokedOf_append]
          simpa [invokedOf, hne] using ih (rhRemove st k) hq2 huniq2

/-- Claim C1: for every query sent with sendQuery, the onreply callback
is invoked at most once: either with the first inbound stanza whose id
attribute equals the generated correlation id (the reply-handler entry
is removed before the callback runs, so no later stanza with the same
id can fire it again), or, when the reply-handler cache expires the
entry first, with the synthesized iq of type error containing a
service-unavailable condition; never both. The freshness hypotheses
restate the cache generateKey guarantee that the key is unguessable and
not currently present, and that the stored callback belongs to this
query alone. -/
theorem claim_C1_onreply_at_most_once (st : ReplyHandlers) (qid : String) (h : Nat)
    (jid dom : String) (iq : XmlNode) (evs : List RhEvent)
    (hfresh : rhLookup st qid = none) (hnz : qid ≠ "")
    (hval : ∀ p ∈ st, p.2 ≠ h) :
    invokedOf h (rhRun (sendQuery st qid h jid dom iq).1 evs).2 =
      (match firstFiring qid evs with
       | none => []
       | some (.stanza s) => [⟨h, s⟩]
       | some (.expire _) => [⟨h, serviceUnavailableIq⟩]) ∧
    (invokedOf h (rhRun (sendQuery st qid h jid dom iq).1 evs).2).length ≤ 1 := by
  have hq := rhLookup_append_self st qid h hfresh
  have huniq : ∀ p ∈ st ++ [(qid, h)], p.2 = h → p.1 = qid := by
    intro p hp heq
    rcases List.mem_append.mp hp with h1 | h2
    · exact absurd heq (hval p h1)
    · rw [List.mem_singleton.mp h2]
  have hmain := rhRun_tracked evs (st ++ [(qid, h)]) qid h hq huniq hnz
  have hsq : (sendQuery st qid h jid dom iq).1 = st ++ [(qid, h)] := rfl
  rw [hsq]
  refine ⟨hmain, ?_⟩
  rw [hmain]
  cases firstFiring qid evs with
  | none => simp
  | some ev => cases ev <;> simp

def c1iq : XmlNode := .mk "iq" [("type", "get")] []

def c1reply : XmlNode := .mk "iq" [("type", "result"), ("id", "q1")] []

def c1evs : List RhEvent := [.stanza c1reply, .stanza c1reply, .expire "q1"]

theorem claim_C1_onreply_at_most_once_witness :
    rhLookup ([] : ReplyHandlers) "q1" = none ∧
    ("q1" : String) ≠ "" ∧
    invokedOf 0 (rhRun (sendQuery [] "q1" 0 "alice@x" "ch.x" c1iq).1 c1evs).2 =
      [⟨0, c1reply⟩] ∧
    (invokedOf 0 (rhRun (sendQuery [] "q1" 0 "alice@x" "ch.x" c1iq).1 c1evs).2).length ≤ 1 := by
  have h := claim_C1_onreply_at_most_once [] "q1" 0 "alice@x" "ch.x" c1iq c1evs rfl
    (by decide) (by simp)
  exact ⟨rfl, by decide, h.1.trans (by rfl), h.2⟩

/-- What the entry-creating branch of subscribe does to each state
component, for an absent entry. -/
theorem subscribe_create_spec (cfg : Config) (st : SessionState) (nodeId : String)
    (c : Caller) (habs : alookup st.subsProps (mkSubkey cfg nodeId) = none) :
    (subscribe cfg st nodeId c).1.subsProps =
      aset st.subsProps (mkSubkey cfg nodeId) st.subHeap.length ∧
    (subscribe cfg st nodeId c).1.subHeap =
      st.subHeap ++ [⟨"subscribing", [c], st.udHeap.length⟩] ∧
    (subscribe cfg st nodeId c).1.udHeap = st.udHeap ++ [UserData.empty] ∧
    (subscribe cfg st nodeId c).1.replyHandlers =
      st.replyHandlers ++
        [(generateKey st, .subReply st.subHeap.length (mkSubkey cfg nodeId))] ∧
    (subscribe cfg st nodeId c).1.nextKey = st.nextKey + 1 ∧
    (subscribe cfg st nodeId c).1.jid = st.jid ∧
    (subscribe cfg st nodeId c).2.filter isSubIqAct =
      [.sendSubscribeIq nodeId (generateKey st)] := by
  rcases hp : alookup st.subsPresences cfg.channelDomain with _ | n
  · simp [subscribe, habs, hp, generateKey, isSubIqAct]
  · by_cases hn : n = 0 <;>
      simp [subscribe, habs, hp, hn, generateKey, isSubIqAct]

/-- A subscribing-state entry makes subscribe append the caller to the
pending list, with no acts at all. -/
theorem subscribe_pending_spec (cfg : Config) (st : SessionState) (nodeId : String)
    (c : Caller) (ref : Nat)
    (hlk : alookup st.subsProps (mkSubkey cfg nodeId) = some ref)
    (hstate : (getSub st ref).state = "subscribing") :
    subscribe cfg st nodeId c =
      (setSub st ref { getSub st ref with pending := (getSub st ref).pending ++ [c] },
       []) := by
  have hns : ¬ (getSub st ref).state = "subscribed" := by
    rw [hstate]
    decide
  simp [subscribe, hlk, hns, hstate]

/-- A success reply moves the entry to state subscribed and invokes the
pending onsub callbacks with the entry-held shared user-data reference;
the pending list itself is left in place. -/
theorem deliverReply_result_spec (st : SessionState) (qid : String) (ref : Nat)
    (subkey : String)
    (hlk : alookup st.replyHandlers qid = some (.subReply ref subkey)) :
    deliverReply st qid (some "result") =
      (setSub { st with replyHandlers := aremove st.replyHandlers qid } ref
         { getSub st ref with state := "subscribed" },
       (getSub st ref).pending.map (fun p => .onsubCall p.onsub (getSub st ref).userData)) := by
  simp [deliverReply, hlk, getSub, setSub]

/-- A non-success reply deletes the subscription entry and invokes the
pending onerror callbacks; the callbacks run against the returned
state, in which the entry is already gone. -/
theorem deliverReply_fail_spec (st : SessionState) (qid : String) (ref : Nat)
    (subkey : String) (rtype : Option String)
    (hlk : alookup st.replyHandlers qid = some (.subReply ref subkey))
    (hne : rtype ≠ some "result") :
    deliverReply st qid rtype =
      ({ st with replyHandlers := aremove st.replyHandlers qid,
                 subsProps := aremove st.subsProps subkey },
       (getSub st ref).pending.map (fun p => .onerrorCall p.onerror "failed")) := by
  simp [deliverReply, hlk, hne, getSub]

/-- Claim C2: a second subscribe call for the same topic arriving while
the entry is in state subscribing appends its caller to the existing
pending list and causes no second outbound subscribe request; across
the two calls exactly one protocol subscribe request is issued, and
when the reply arrives both callers receive the outcome (both onsub
with the shared user data on success, both onerror on failure). The
freshness hypothesis on the correlation key restates the cache
generateKey guarantee. -/
theorem claim_C2_duplicate_suppression (cfg : Config) (st0 : SessionState)
    (nodeId : String) (c1 c2 : Caller) (rtype : Option String)
    (habs : alookup st0.subsProps (mkSubkey cfg nodeId) = none)
    (hfresh : alookup st0.replyHandlers (generateKey st0) = none) :
    ((subscribe cfg st0 nodeId c1).2.filter isSubIqAct).length = 1 ∧
    (subscribe cfg (subscribe cfg st0 nodeId c1).1 nodeId c2).2 = [] ∧
    (getSub (subscribe cfg (subscribe cfg st0 nodeId c1).1 nodeId c2).1
        st0.subHeap.length).pending = [c1, c2] ∧
    (rtype = some "result" →
      (deliverReply (subscribe cfg (subscribe cfg st0 nodeId c1).1 nodeId c2).1
          (generateKey st0) rtype).2 =
        [.onsubCall c1.onsub st0.udHeap.length, .onsubCall c2.onsub st0.udHeap.length]) ∧
    (rtype ≠ some "result" →
      (deliverReply (subscribe cfg (subscribe cfg st0 nodeId c1).1 nodeId c2).1
          (generateKey st0) rtype).2 =
        [.onerrorCall c1.onerror "failed", .onerrorCall c2.onerror "failed"]) := by
  obtain ⟨hprops, hheap, hud, hrh, hnk, hjid, hfil⟩ :=
    subscribe_create_spec cfg st0 nodeId c1 habs
  have hlk1 : alookup (subscribe cfg st0 nodeId c1).1.subsProps (mkSubkey cfg nodeId) =
      some st0.subHeap.length := by
    rw [hprops]
    exact alookup_aset_self _ _ _
  have hsub1 : getSub (subscribe cfg st0 nodeId c1).1 st0.subHeap.length =
      ⟨"subscribing", [c1], st0.udHeap.length⟩ := by
    rw [getSub, hheap]
    exact getD_append_length _ _ _
  have h2 : subscribe cfg (subscribe cfg st0 nodeId c1).1 nodeId c2 =
      (setSub (subscribe cfg st0 nodeId c1).1 st0.subHeap.length
        ⟨"subscribing", [c1, c2], st0.udHeap.length⟩, []) := by
    rw [subscribe_pending_spec cfg _ nodeId c2 st0.subHeap.length hlk1
      (by rw [hsub1])]
    rw [hsub1]
    simp
  have hheap2 : (subscribe cfg (subscribe cfg st0 nodeId c1).1 nodeId c2).1.subHeap =
      st0.subHeap ++ [⟨"subscribing", [c1, c2], st0.udHeap.length⟩] := by
    rw [h2]
    simp only [setSub, hheap]
    exact set_append_length _ _ _
  have hsub2 : getSub (subscribe cfg (subscribe cfg st0 nodeId c1).1 nodeId c2).1
      st0.subHeap.length = ⟨"subscribing", [c1, c2], st0.udHeap.length⟩ := by
    rw [getSub, hheap2]
    exact getD_append_length _ _ _
  have hrh2 : (subscribe cfg (subscribe cfg st0 nodeId c1).1 nodeId c2).1.replyHandlers =
      st0.replyHandlers ++
        [(generateKey st0, .subReply st0.subHeap.length (mkSubkey cfg nodeId))] := by
    rw [h2]
    exact hrh
  have hlkq : alookup
      (subscribe cfg (subscribe cfg st0 nodeId c1).1 nodeId c2).1.replyHandlers
      (generateKey st0) =
      some (.subReply st0.subHeap.length (mkSubkey cfg nodeId)) := by
    rw [hrh2]
    exact alookup_append_self _ _ _ hfresh
  refine ⟨by rw [hfil]; rfl, by rw [h2], by rw [hsub2], ?_, ?_⟩
  · intro hres
    rw [hres, deliverReply_result_spec _ _ _ _ hlkq, hsub2]
    simp
  · intro hres
    rw [deliverReply_fail_spec _ _ _ _ rtype hlkq hres, hsub2]
    simp

def c2st0 : SessionState := initSession "alice@example.org/http"

theorem claim_C2_duplicate_suppression_witness :
    ((subscribe cfgEx c2st0 "/user/a@x/posts" ⟨0, 1⟩).2.filter isSubIqAct).length = 1 ∧
    (subscribe cfgEx (subscribe cfgEx c2st0 "/user/a@x/posts" ⟨0, 1⟩).1
      "/user/a@x/posts" ⟨2, 3⟩).2 = [] ∧
    (getSub (subscribe cfgEx (subscribe cfgEx c2st0 "/user/a@x/posts" ⟨0, 1⟩).1
        "/user/a@x/posts" ⟨2, 3⟩).1 0).pending = [⟨0, 1⟩, ⟨2, 3⟩] ∧
    (deliverReply (subscribe cfgEx (subscribe cfgEx c2st0 "/user/a@x/posts" ⟨0, 1⟩).1
        "/user/a@x/posts" ⟨2, 3⟩).1 "q0" (some "result")).2 =
      [.onsubCall 0 0, .onsubCall 2 0] ∧
    (deliverReply (subscribe cfgEx (subscribe cfgEx c2st0 "/user/a@x/posts" ⟨0, 1⟩).1
        "/user/a@x/posts" ⟨2, 3⟩).1 "q0" none).2 =
      [.onerrorCall 1 "failed", .onerrorCall 3 "failed"] := by
  have hA := claim_C2_duplicate_suppression cfgEx c2st0 "/user/a@x/posts"
    ⟨0, 1⟩ ⟨2, 3⟩ (some "result") rfl rfl
  have hB := claim_C2_duplicate_suppression cfgEx c2st0 "/user/a@x/posts"
    ⟨0, 1⟩ ⟨2, 3⟩ none rfl rfl
  exact ⟨hA.1, hA.2.1, hA.2.2.1, hA.2.2.2.1 rfl, hB.2.2.2.2 (by decide)⟩

theorem getSub_setSub_self (st : SessionState) (ref : Nat) (s : Sub)
    (h : ref < st.subHeap.length) : getSub (setSub st ref s) ref = s :=
  getD_set_self st.subHeap ref s _ h

theorem getUd_setUd_self (st : SessionState) (ref : Nat) (u : UserData)
    (h : ref < st.udHeap.length) : getUd (setUd st ref u) ref = u :=
  getD_set_self st.udHeap ref u _ h

/-- Any inbound pubsub event message for a topic with an entry appends
the message items to the shared user-data object held by that entry,
whether or not fan-out is configured. -/
theorem handleMessageItems_items (cfg : Config) (st : SessionState) (nodeId : String)
    (fromAttr : Option String) (entries : List AtomEntry) (ref : Nat)
    (hlk : alookup st.subsProps (mkSubkey cfg nodeId) = some ref)
    (hud : (getSub st ref).userData < st.udHeap.length) :
    (getUd (handleMessageItems cfg st nodeId fromAttr entries).1
        (getSub st ref).userData).items =
      some ((getUd st (getSub st ref).userData).items.getD [] ++ entries.map mkItem) := by
  cases hitems : (getUd st (getSub st ref).userData).items with
  | none =>
    cases hreal : cfg.fanoutRealm with
    | none =>
      simp [handleMessageItems, hlk, hitems, hreal, getUd_setUd_self _ _ _ hud]
    | some r0 =>
      cases hlast : (entries.map mkItem).getLast? with
      | none =>
        simp [handleMessageItems, hlk, hitems, hreal, hlast,
          getUd_setUd_self _ _ _ hud]
      | some it =>
        simp [handleMessageItems, hlk, hitems, hreal, hlast,
          getUd_setUd_self _ _ _ hud]
  | some l =>
    cases hreal : cfg.fanoutRealm with
    | none =>
      simp [handleMessageItems, hlk, hitems, hreal, getUd_setUd_self _ _ _ hud]
    | some r0 =>
      cases hlast : (l ++ entries.map mkItem).getLast? with
      | none =>
        simp [handleMessageItems, hlk, hitems, hreal, hlast,
          getUd_setUd_self _ _ _ hud]
      | some it =>
        simp [handleMessageItems, hlk, hitems, hreal, hlast,
          getUd_setUd_self _ _ _ hud]

/-- Claim C3 (amended): a protocol subscribe reply of success type
moves the entry to state subscribed and invokes every callback on the
pending list with the same shared user-data object, the one stored in
the entry; the pending list is left in place rather than cleared, but
it is never consulted again because the entry is now subscribed. Items
pushed afterward accumulate into that same user-data object, so they
are visible to every caller that subscribed during the subscribing
window. -/
theorem claim_C3_amended_shared_userdata (st : SessionState) (qid : String)
    (ref : Nat) (subkey : String)
    (hlk : alookup st.replyHandlers qid = some (.subReply ref subkey))
    (hvalid : ref < st.subHeap.length)
    (hudvalid : (getSub st ref).userData < st.udHeap.length) :
    (getSub (deliverReply st qid (some "result")).1 ref).state = "subscribed" ∧
    (deliverReply st qid (some "result")).2 =
      (getSub st ref).pending.map
        (fun p => .onsubCall p.onsub (getSub st ref).userData) ∧
    (getSub (deliverReply st qid (some "result")).1 ref).pending =
      (getSub st ref).pending ∧
    (getSub (deliverReply st qid (some "result")).1 ref).userData =
      (getSub st ref).userData ∧
    (∀ cfg nodeId fromAttr entries,
      alookup (deliverReply st qid (some "result")).1.subsProps
          (mkSubkey cfg nodeId) = some ref →
      (getUd (handleMessageItems cfg (deliverReply st qid (some "result")).1
          nodeId fromAttr entries).1 (getSub st ref).userData).items =
        some ((getUd (deliverReply st qid (some "result")).1
            (getSub st ref).userData).items.getD [] ++ entries.map mkItem)) := by
  have hspec := deliverReply_result_spec st qid ref subkey hlk
  have hvalid2 : ref <
      ({ st with replyHandlers := aremove st.replyHandlers qid } : SessionState).subHeap.length :=
    hvalid
  have hget : getSub (deliverReply st qid (some "result")).1 ref =
      { getSub st ref with state := "subscribed" } := by
    rw [hspec]
    exact getSub_setSub_self _ ref _ hvalid2
  refine ⟨by rw [hget], by rw [hspec], by rw [hget], by rw [hget], ?_⟩
  intro cfg nodeId fromAttr entries hlk2
  have hud2 : (getSub (deliverReply st qid (some "result")).1 ref).userData <
      (deliverReply st qid (some "result")).1.udHeap.length := by
    rw [hget]
    rw [hspec]
    exact hudvalid
  have hmain := handleMessageItems_items cfg (deliverReply st qid (some "result")).1
    nodeId fromAttr entries ref hlk2 hud2
  rw [hget] at hmain
  exact hmain

/-- Claim C4: a protocol subscribe reply of non-success type removes
the subscription entry for that topic before any callback runs (the
callbacks run against the returned state, in which the entry is gone)
and invokes every pending onerror with a failure indicator; afterwards
no entry exists for that topic, so a subsequent subscribe for the same
topic creates a fresh entry and issues a fresh protocol subscribe
request rather than reusing stale state. -/
theorem claim_C4_failed_reply_cleans_state (cfg : Config) (st : SessionState)
    (nodeId : String) (qid : String) (ref : Nat) (c : Caller) (rtype : Option String)
    (hlk : alookup st.replyHandlers qid = some (.subReply ref (mkSubkey cfg nodeId)))
    (hne : rtype ≠ some "result") :
    alookup (deliverReply st qid rtype).1.subsProps (mkSubkey cfg nodeId) = none ∧
    (deliverReply st qid rtype).2 =
      (getSub st ref).pending.map (fun p => .onerrorCall p.onerror "failed") ∧
    (subscribe cfg (deliverReply st qid rtype).1 nodeId c).2.filter isSubIqAct =
      [.sendSubscribeIq nodeId (generateKey (deliverReply st qid rtype).1)] ∧
    alookup (subscribe cfg (deliverReply st qid rtype).1 nodeId c).1.subsProps
        (mkSubkey cfg nodeId) = some (deliverReply st qid rtype).1.subHeap.length ∧
    getSub (subscribe cfg (deliverReply st qid rtype).1 nodeId c).1
        (deliverReply st qid rtype).1.subHeap.length =
      ⟨"subscribing", [c], (deliverReply st qid rtype).1.udHeap.length⟩ := by
  have hspec := deliverReply_fail_spec st qid ref (mkSubkey cfg nodeId) rtype hlk hne
  have habs : alookup (deliverReply st qid rtype).1.subsProps (mkSubkey cfg nodeId) =
      none := by
    rw [hspec]
    exact alookup_aremove_self _ _
  obtain ⟨hprops, hheap, hud, hrh, hnk, hjid, hfil⟩ :=
    subscribe_create_spec cfg (deliverReply st qid rtype).1 nodeId c habs
  refine ⟨habs, by rw [hspec], hfil, ?_, ?_⟩
  · rw [hprops]
    exact alookup_aset_self _ _ _
  · rw [getSub, hheap]
    exact getD_append_length _ _ _

theorem claim_C3_amended_shared_userdata_witness :
    (getSub (deliverReply c3r1.1 "q0" (some "result")).1 0).state = "subscribed" ∧
    (deliverReply c3r1.1 "q0" (some "result")).2 = [.onsubCall 0 0] ∧
    (getSub (deliverReply c3r1.1 "q0" (some "result")).1 0).pending = [⟨0, 1⟩] ∧
    (getSub (deliverReply c3r1.1 "q0" (some "result")).1 0).userData = 0 ∧
    (getUd (handleMessageItems cfgEx (deliverReply c3r1.1 "q0" (some "result")).1
        "/user/a@x/posts" (some "a@x") [⟨"e1", 5500⟩]).1 0).items =
      some [⟨"e1", 5000, ⟨"e1", 5500⟩⟩] := by
  have h := claim_C3_amended_shared_userdata c3r1.1 "q0" 0
    "channels.example.org_/user/a@x/posts" (by decide) (by decide) (by decide)
  refine ⟨h.1, h.2.1.trans (by rfl), h.2.2.1.trans (by rfl), h.2.2.2.1.trans (by rfl), ?_⟩
  have h5 := h.2.2.2.2 cfgEx "/user/a@x/posts" (some "a@x") [⟨"e1", 5500⟩] (by decide)
  exact h5.trans (by rfl)

theorem claim_C4_failed_reply_cleans_state_witness :
    alookup (deliverReply c3r1.1 "q0" none).1.subsProps
      "channels.example.org_/user/a@x/posts" = none ∧
    (deliverReply c3r1.1 "q0" none).2 = [.onerrorCall 1 "failed"] ∧
    (subscribe cfgEx (deliverReply c3r1.1 "q0" none).1 "/user/a@x/posts"
        ⟨4, 5⟩).2.filter isSubIqAct = [.sendSubscribeIq "/user/a@x/posts" "q1"] ∧
    alookup (subscribe cfgEx (deliverReply c3r1.1 "q0" none).1 "/user/a@x/posts"
        ⟨4, 5⟩).1.subsProps "channels.example.org_/user/a@x/posts" = some 1 ∧
    getSub (subscribe cfgEx (deliverReply c3r1.1 "q0" none).1 "/user/a@x/posts"
        ⟨4, 5⟩).1 1 = ⟨"subscribing", [⟨4, 5⟩], 1⟩ := by
  have h := claim_C4_failed_reply_cleans_state cfgEx c3r1.1 "/user/a@x/posts" "q0" 0
    ⟨4, 5⟩ none (by decide) (by decide)
  exact ⟨h.1, h.2.1.trans (by rfl), h.2.2.1.trans (by rfl),
    h.2.2.2.1.trans (by rfl), h.2.2.2.2.trans (by rfl)⟩

theorem getLast?_map_own {α β : Type} (f : α → β) (l : List α) :
    (l.map f).getLast? = (l.getLast?).map f := by
  induction l with
  | nil => rfl
  | cons a rest ih =>
    cases rest with
    | nil => rfl
    | cons b r2 =>
      simp only [List.map_cons, List.getLast?_cons_cons] at ih ⊢
      exact ih

theorem foIdOfItem_ne_empty (it : Item) : foIdOfItem it ≠ "" := by
  intro h
  have hd := congrArg String.data h
  rw [foIdOfItem, String.data_append, String.data_append] at hd
  have h1 : ("_" : String).data = ['_'] := rfl
  have h2 : ("" : String).data = [] := rfl
  rw [h1, h2] at hd
  simp at hd

/-- Claim C6: for two consecutive publish-event notifications for the
same subscribed topic with fan-out configured, each notification emits
an atom and a json fan-out item with the same id and prev-id; the first
emission carries no predecessor id, and the second emission's prev-id
equals the first emission's id; each emitted id is the entry id, an
underscore, and the entry's updated millisecond timestamp floored to
the second boundary. -/
theorem claim_C6_fanout_prev_id_chain (cfg : Config) (st : SessionState)
    (nodeId : String) (ref : Nat) (fromA1 fromA2 : Option String)
    (e1 e2 : List AtomEntry) (l1 l2 : AtomEntry) (r : String)
    (hreal : cfg.fanoutRealm = some r)
    (hlk : alookup st.subsProps (mkSubkey cfg nodeId) = some ref)
    (hfresh : (getUd st (getSub st ref).userData).items = none)
    (hudv : (getSub st ref).userData < st.udHeap.length)
    (hl1 : e1.getLast? = some l1) (hl2 : e2.getLast? = some l2) :
    fanoutIdsOf (handleMessageItems cfg st nodeId fromA1 e1).2 =
      [(some (foIdOfEntry l1), none), (some (foIdOfEntry l1), none)] ∧
    fanoutIdsOf (handleMessageItems cfg (handleMessageItems cfg st nodeId fromA1 e1).1
        nodeId fromA2 e2).2 =
      [(some (foIdOfEntry l2), some (foIdOfEntry l1)),
       (some (foIdOfEntry l2), some (foIdOfEntry l1))] := by
  have hlast1 : (e1.map mkItem).getLast? = some (mkItem l1) := by
    rw [getLast?_map_own, hl1]
    rfl
  have hne1 := foIdOfItem_ne_empty (mkItem l1)
  have hne2 := foIdOfItem_ne_empty (mkItem l2)
  have hstate1 : (handleMessageItems cfg st nodeId fromA1 e1).1 =
      setUd st (getSub st ref).userData
        ⟨some (e1.map mkItem), fromA1, none, some (foIdOfEntry l1)⟩ := by
    simp [handleMessageItems, hlk, hfresh, hreal, hlast1, foIdOfEntry]
  have hout1 : fanoutIdsOf (handleMessageItems cfg st nodeId fromA1 e1).2 =
      [(some (foIdOfEntry l1), none), (some (foIdOfEntry l1), none)] := by
    simp [handleMessageItems, hlk, hfresh, hreal, hlast1, fanoutIdsOf,
      fanoutPublish, jsTruthy, foIdOfEntry, hne1]
  refine ⟨hout1, ?_⟩
  have hlk2 : alookup (handleMessageItems cfg st nodeId fromA1 e1).1.subsProps
      (mkSubkey cfg nodeId) = some ref := by
    rw [hstate1]
    exact hlk
  have hgetsub2 : getSub (handleMessageItems cfg st nodeId fromA1 e1).1 ref =
      getSub st ref := by
    rw [hstate1]
    rfl
  have hgetud2 : getUd (handleMessageItems cfg st nodeId fromA1 e1).1
      (getSub st ref).userData =
      ⟨some (e1.map mkItem), fromA1, none, some (foIdOfEntry l1)⟩ := by
    rw [hstate1]
    exact getUd_setUd_self _ _ _ hudv
  have he2nil : e2.map mkItem ≠ [] := by
    intro h
    have : e2 = [] := List.map_eq_nil_iff.mp h
    rw [this] at hl2
    simp at hl2
  have hlast2 : ((e1.map mkItem) ++ e2.map mkItem).getLast? = some (mkItem l2) := by
    rw [List.getLast?_append_of_ne_nil _ he2nil, getLast?_map_own, hl2]
    rfl
  generalize hA : (handleMessageItems cfg st nodeId fromA1 e1).1 = A at hlk2 hgetsub2 hgetud2 ⊢
  simp [handleMessageItems, hlk2, hgetsub2, hgetud2, hreal, hlast2, fanoutIdsOf,
    fanoutPublish, jsTruthy, foIdOfEntry, hne1, hne2]

/-- A session with one subscribed topic under the fan-out-enabled
configuration, for the C6 evaluation. -/
def c6st : SessionState :=
  (deliverReply (subscribe cfgExF (initSession "me@x/http")
    "/user/alice@x/posts" ⟨0, 1⟩).1 "q0" (some "result")).1

def c6e1 : List AtomEntry := [⟨"e1", 1350345601500⟩]

def c6e2 : List AtomEntry := [⟨"e2", 1350345602500⟩, ⟨"e3", 1350345603999⟩]

theorem claim_C6_fanout_prev_id_chain_witness :
    fanoutIdsOf (handleMessageItems cfgExF c6st "/user/alice@x/posts"
        (some "p@x") c6e1).2 =
      [(some "e1_1350345601000", none), (some "e1_1350345601000", none)] ∧
    fanoutIdsOf (handleMessageItems cfgExF
        (handleMessageItems cfgExF c6st "/user/alice@x/posts" (some "p@x") c6e1).1
        "/user/alice@x/posts" (some "p@x") c6e2).2 =
      [(some "e3_1350345603000", some "e1_1350345601000"),
       (some "e3_1350345603000", some "e1_1350345601000")] := by
  have h := claim_C6_fanout_prev_id_chain cfgExF c6st "/user/alice@x/posts" 0
    (some "p@x") (some "p@x") c6e1 c6e2 ⟨"e1", 1350345601500⟩ ⟨"e3", 1350345603999⟩
    "realm1" rfl (by decide) (by decide) (by decide) rfl rfl
  exact ⟨h.1.trans (by decide), h.2.trans (by decide)⟩

theorem subscribe_untouched_fields (cfg : Config) (st : SessionState) (n : String)
    (c : Caller) :
    (subscribe cfg st n c).1.subsEntries = st.subsEntries ∧
    (subscribe cfg st n c).1.subsOnexpired = st.subsOnexpired := by
  rcases h : alookup st.subsProps (mkSubkey cfg n) with _ | ref
  · rcases hp : alookup st.subsPresences cfg.channelDomain with _ | m
    · simp [subscribe, h, hp]
    · by_cases hm : m = 0 <;> simp [subscribe, h, hp, hm]
  · by_cases h1 : (getSub st ref).state = "subscribed"
    · simp [subscribe, h, h1]
    · by_cases h2 : (getSub st ref).state = "subscribing" <;>
        simp [subscribe, h, h1, h2, setSub]

theorem deliverReply_untouched_fields (st : SessionState) (q : String)
    (t : Option String) :
    (deliverReply st q t).1.subsEntries = st.subsEntries ∧
    (deliverReply st q t).1.subsOnexpired = st.subsOnexpired := by
  rcases h : alookup st.replyHandlers q with _ | hd
  · simp [deliverReply, h]
  · rcases hd with ⟨ref, sk⟩
    by_cases ht : t = some "result" <;> simp [deliverReply, h, ht, setSub]

theorem handleMessageItems_untouched_fields (cfg : Config) (st : SessionState)
    (n : String) (f : Option String) (es : List AtomEntry) :
    (handleMessageItems cfg st n f es).1.subsEntries = st.subsEntries ∧
    (handleMessageItems cfg st n f es).1.subsOnexpired = st.subsOnexpired ∧
    (handleMessageItems cfg st n f es).1.subsProps = st.subsProps := by
  rcases h : alookup st.subsProps (mkSubkey cfg n) with _ | ref
  · simp [handleMessageItems, h]
  · rcases hit : (getUd st (getSub st ref).userData).items with _ | l
    · rcases hreal : cfg.fanoutRealm with _ | r0
      · simp [handleMessageItems, h, hit, hreal, setUd]
      · rcases hlast : (es.map mkItem).getLast? with _ | it <;>
          simp [handleMessageItems, h, hit, hreal, hlast, setUd]
    · rcases hreal : cfg.fanoutRealm with _ | r0
      · simp [handleMessageItems, h, hit, hreal, setUd]
      · rcases hlast : (l ++ es.map mkItem).getLast? with _ | it <;>
          simp [handleMessageItems, h, hit, hreal, hlast, setUd]

theorem subsSweep_untouched_fields (st : SessionState) (now ttl : Nat) :
    (subsSweep st now ttl).1.subsOnexpired = st.subsOnexpired ∧
    (subsSweep st now ttl).1.subsProps = st.subsProps := by
  rcases hcb : st.subsOnexpired with _ | cb <;> simp [subsSweep, hcb]

theorem sessStep_inv (cfg : Config) (ttl : Nat) (st : SessionState) (op : SessOp)
    (h1 : st.subsEntries = []) (h2 : st.subsOnexpired = none) :
    (sessStep cfg ttl st op).1.subsEntries = [] ∧
    (sessStep cfg ttl st op).1.subsOnexpired = none := by
  cases op with
  | sub n c =>
    have h := subscribe_untouched_fields cfg st n c
    exact ⟨h.1.trans h1, h.2.trans h2⟩
  | reply q t =>
    have h := deliverReply_untouched_fields st q t
    exact ⟨h.1.trans h1, h.2.trans h2⟩
  | message n f es =>
    have h := handleMessageItems_untouched_fields cfg st n f es
    exact ⟨h.1.trans h1, h.2.1.trans h2⟩
  | sweep now =>
    constructor
    · rcases hcb : st.subsOnexpired with _ | cb <;> simp [sessStep, subsSweep, hcb, h1]
    · exact (subsSweep_untouched_fields st now ttl).1.trans h2

theorem runOps_inv (cfg : Config) (ttl : Nat) (ops : List SessOp) :
    ∀ st : SessionState, st.subsEntries = [] → st.subsOnexpired = none →
    (runOps cfg ttl st ops).subsEntries = [] ∧
    (runOps cfg ttl st ops).subsOnexpired = none := by
  induction ops with
  | nil =>
    intro st h1 h2
    exact ⟨h1, h2⟩
  | cons op rest ih =>
    intro st h1 h2
    have hstep := sessStep_inv cfg ttl st op h1 h2
    simp only [runOps, List.foldl_cons]
    exact ih (sessStep cfg ttl st op).1 hstep.1 hstep.2

theorem subsSweep_noop (st : SessionState) (now ttl : Nat)
    (h1 : st.subsEntries = []) (h2 : st.subsOnexpired = none) :
    subsSweep st now ttl = (st, []) := by
  have he : ({ st with subsEntries := [], subsOnexpired := none } : SessionState) = st := by
    rw [← h1, ← h2]
  simp [subsSweep, h1, h2, he]

theorem sessStep_keeps_props (cfg : Config) (ttl : Nat) (st : SessionState)
    (op : SessOp) (hop : isReplyOp op = false) (k : String) (v : Nat)
    (hk : alookup st.subsProps k = some v) :
    alookup (sessStep cfg ttl st op).1.subsProps k = some v := by
  cases op with
  | sub n c =>
    rcases h : alookup st.subsProps (mkSubkey cfg n) with _ | ref
    · have hkne : k ≠ mkSubkey cfg n := by
        intro he
        rw [he, h] at hk
        cases hk
      have hprops := (subscribe_create_spec cfg st n c h).1
      simp only [sessStep]
      rw [hprops, alookup_aset_ne _ _ _ _ hkne]
      exact hk
    · by_cases h1 : (getSub st ref).state = "subscribed"
      · simp [sessStep, subscribe, h, h1, hk]
      · by_cases h2 : (getSub st ref).state = "subscribing"
        · simp [sessStep, subscribe, h, h1, h2, setSub, hk]
        · simp [sessStep, subscribe, h, h1, h2, hk]
  | reply q t => simp [isReplyOp] at hop
  | message n f es =>
    have h := (handleMessageItems_untouched_fields cfg st n f es).2.2
    simp only [sessStep]
    rw [h]
    exact hk
  | sweep now =>
    have h := (subsSweep_untouched_fields st now ttl).2
    simp only [sessStep]
    rw [h]
    exact hk

/-- Claim C10: subscription entries live only as direct properties of
the _subs cache object, never in its TTL-managed store, and no
expiration callback is installed on that cache; consequently, on every
state reachable by subscription operations from a fresh session, the
TTL store of _subs is empty, a TTL sweep is a no-op that fires no
callback, and no operation other than the delivery of a subscribe reply
ever removes a subscription entry, so a subscription persists until the
session ends or a failed subscribe reply deletes it and is never
evicted by timeout. -/
theorem claim_C10_subs_never_evicted (cfg : Config) (ttl : Nat) (jid : String)
    (ops : List SessOp) :
    (runOps cfg ttl (initSession jid) ops).subsEntries = [] ∧
    (runOps cfg ttl (initSession jid) ops).subsOnexpired = none ∧
    (∀ now, subsSweep (runOps cfg ttl (initSession jid) ops) now ttl =
      (runOps cfg ttl (initSession jid) ops, [])) ∧
    (∀ op, isReplyOp op = false → ∀ k v,
      alookup (runOps cfg ttl (initSession jid) ops).subsProps k = some v →
      alookup (sessStep cfg ttl (runOps cfg ttl (initSession jid) ops) op).1.subsProps k =
        some v) := by
  have hinv := runOps_inv cfg ttl ops (initSession jid) rfl rfl
  refine ⟨hinv.1, hinv.2, ?_, ?_⟩
  · intro now
    exact subsSweep_noop _ now ttl hinv.1 hinv.2
  · intro op hop k v hk
    exact sessStep_keeps_props cfg ttl _ op hop k v hk

theorem claim_C10_subs_never_evicted_witness :
    (runOps cfgEx 5 (initSession "me@x") [.sub "/user/a@x/posts" ⟨0, 1⟩]).subsEntries = [] ∧
    (runOps cfgEx 5 (initSession "me@x") [.sub "/user/a@x/posts" ⟨0, 1⟩]).subsOnexpired = none ∧
    subsSweep (runOps cfgEx 5 (initSession "me@x") [.sub "/user/a@x/posts" ⟨0, 1⟩]) 999 5 =
      (runOps cfgEx 5 (initSession "me@x") [.sub "/user/a@x/posts" ⟨0, 1⟩], []) ∧
    alookup (sessStep cfgEx 5 (runOps cfgEx 5 (initSession "me@x")
        [.sub "/user/a@x/posts" ⟨0, 1⟩]) (.sweep 999)).1.subsProps
      "channels.example.org_/user/a@x/posts" = some 0 := by
  have h := claim_C10_subs_never_evicted cfgEx 5 "me@x" [.sub "/user/a@x/posts" ⟨0, 1⟩]
  exact ⟨h.1, h.2.1, h.2.2.1 999,
    h.2.2.2 (.sweep 999) (by decide) "channels.example.org_/user/a@x/posts" 0 (by decide)⟩

end BC
